import Mathlib

/-!
Verification of the stateless pin tracker, adder and identity components of
the ipfs-cluster repository, against its design specification.

The stateless pin tracker implementation itself is not present in the
source tree (only its test suite is), so the Operation Tracker, worker
pool, reconciler and facade are modelled from the specification text
(sections 3, 4 and 5 of the design document); each such definition carries
a doc comment starting with `Modelled from the spec:`.  The adder
(`adder.go`, supplied unnamed) and the identity configuration
(`config/identity.go`) are present in the source and are embedded
directly from the code.
-/

namespace Stateless

/-- Content identifier.  The source uses `cid.Cid`, an opaque value whose
string form gives equality; `cid.Undef` is the zero value, whose string
form is empty.  We model a CID as its string form, with `""` as the
undefined sentinel. -/
abbrev CID := String

/-- The undefined CID sentinel (`cid.Undef` in the source). -/
def CID.undef : CID := ""

/-- Modelled from the spec: the phase of an operation,
`phase ∈ {PinQueued, Pinning, Unpinning, UnpinQueued, PinError, UnpinError,
Pinned, Unpinned, Remote}` (spec section 3, Operation). -/
inductive Phase where
  | pinQueued
  | pinning
  | unpinQueued
  | unpinning
  | pinError
  | unpinError
  | pinned
  | unpinned
  | remote
  deriving DecidableEq, Repr

/-- Modelled from the spec: the intent of an operation — pin or unpin.
The spec describes phases as "the operation's intent combined with its
execution stage" (section 3). -/
inductive Intent where
  | pin
  | unpin
  deriving DecidableEq, Repr

/-- Modelled from the spec: the intent carried by each phase.  `Remote`
records the outcome of a pin-intent Track whose allocations exclude this
peer (spec section 4.4). -/
def Phase.intent : Phase → Intent
  | .pinQueued => .pin
  | .pinning => .pin
  | .pinError => .pin
  | .pinned => .pin
  | .remote => .pin
  | .unpinQueued => .unpin
  | .unpinning => .unpin
  | .unpinError => .unpin
  | .unpinned => .unpin

/-- Modelled from the spec: `PinQueued` and `UnpinQueued` are
pre-execution phases (spec section 3). -/
def Phase.isQueued : Phase → Bool
  | .pinQueued => true
  | .unpinQueued => true
  | _ => false

/-- Modelled from the spec: `Pinning` and `Unpinning` are in-flight phases
(spec section 3). -/
def Phase.isInFlight : Phase → Bool
  | .pinning => true
  | .unpinning => true
  | _ => false

/-- Modelled from the spec: `Pinned`, `Unpinned`, `PinError`, `UnpinError`
and `Remote` are terminal phases (spec section 3). -/
def Phase.isTerminal : Phase → Bool
  | .pinned => true
  | .unpinned => true
  | .pinError => true
  | .unpinError => true
  | .remote => true
  | _ => false

/-- Modelled from the spec: the two terminal error phases, which Recover
and SyncAll treat as recoverable (spec sections 4.3 and 7). -/
def Phase.isError : Phase → Bool
  | .pinError => true
  | .unpinError => true
  | _ => false

/-- Modelled from the spec: the queued phase expressing a fresh intent
(spec section 4.1, Track installs `PinQueued` or `UnpinQueued`). -/
def Intent.queuedPhase : Intent → Phase
  | .pin => .pinQueued
  | .unpin => .unpinQueued

/-- Modelled from the spec: the in-flight phase for an intent
(spec section 4.2, worker loop transitions queued to in-flight). -/
def Intent.inFlightPhase : Intent → Phase
  | .pin => .pinning
  | .unpin => .unpinning

/-- Modelled from the spec: the success terminal phase for an intent
(spec section 4.2, "Success → transition to Pinned / Unpinned"). -/
def Intent.donePhase : Intent → Phase
  | .pin => .pinned
  | .unpin => .unpinned

/-- Modelled from the spec: the error terminal phase for an intent
(spec section 4.2, "Error → transition to PinError / UnpinError"). -/
def Intent.errorPhase : Intent → Phase
  | .pin => .pinError
  | .unpin => .unpinError

/-- Modelled from the spec: an Operation record — cid, phase, a
cancellation token (identified here by the number under which it was
registered in the token store), and an error string (spec section 3). -/
structure Operation where
  cid : CID
  phase : Phase
  token : Nat
  error : Option String
  deriving DecidableEq, Repr

/-- Modelled from the spec: the Operation Map, a mapping from CID to at
most one Operation (spec section 3).  Represented as an association list
queried through `find`. -/
abbrev OpMap := List (CID × Operation)

/-- Look up the current operation for a CID in the Operation Map. -/
def OpMap.find (m : OpMap) (c : CID) : Option Operation :=
  m.lookup c

/-- Replace (or insert) the operation for a CID in the Operation Map,
keeping at most one entry per CID. -/
def OpMap.set (m : OpMap) (c : CID) (op : Operation) : OpMap :=
  (c, op) :: m.filter (fun p => p.1 != c)

/-- Remove the operation for a CID from the Operation Map
(`Clean(cid)` in spec section 4.1). -/
def OpMap.remove (m : OpMap) (c : CID) : OpMap :=
  m.filter (fun p => p.1 != c)

/-- Modelled from the spec: the Operation Tracker state together with the
worker-pool queues and lifecycle flag (spec sections 3, 4.1, 4.2, 4.4).
`ops` is the Operation Map; `fired` records which per-operation
cancellation tokens have been fired; `rootFired` is the tracker's
lifetime token, fired by Shutdown (spec section 9, per-operation
cancellation); `nextToken` feeds fresh tokens; `pinQueue` and
`unpinQueue` are the two FIFO queues of the worker pool; `active` lists
(cid, token) pairs currently held by executing workers; `isShutdown` is
set once Shutdown has run. -/
structure TrackerState where
  ops : OpMap
  fired : Nat → Bool
  rootFired : Bool
  nextToken : Nat
  pinQueue : List CID
  unpinQueue : List CID
  active : List (CID × Nat)
  isShutdown : Bool

/-- Modelled from the spec: the freshly constructed tracker — empty
Operation Map, no tokens fired, empty queues (spec section 3, Tracker
Lifecycle). -/
def TrackerState.initial : TrackerState where
  ops := []
  fired := fun _ => false
  rootFired := false
  nextToken := 0
  pinQueue := []
  unpinQueue := []
  active := []
  isShutdown := false

/-- Modelled from the spec: whether a cancellation token is observed as
cancelled — its own token fired, or the tracker's root token fired
(spec section 9: each operation owns a child token of the tracker's
lifetime token). -/
def TrackerState.cancelledTok (s : TrackerState) (t : Nat) : Bool :=
  s.rootFired || s.fired t

/-- Modelled from the spec: `OpContext(cid)` exposes the cancellation
token of the current operation (spec section 4.1); here we expose whether
that token has fired.  `none` when no operation exists. -/
def TrackerState.opContextFired (s : TrackerState) (c : CID) : Option Bool :=
  (s.ops.find c).map (fun op => s.cancelledTok op.token)

/-- Modelled from the spec: a status snapshot as returned by `Get`
(spec section 4.1): the cid, the phase and the error. -/
structure PinSnapshot where
  cid : CID
  status : Phase
  error : Option String
  deriving DecidableEq, Repr

/-- Modelled from the spec: the zero-value sentinel returned by `Get` for
an unknown CID (spec section 4.1, "a zero-value sentinel (cid undefined)
if unknown").  The test suite reads an untracked CID back as
`cid.Undef` with status `Unpinned` (stateless_test.go lines 253-257). -/
def PinSnapshot.sentinel : PinSnapshot where
  cid := CID.undef
  status := .unpinned
  error := none

/-- Modelled from the spec: `Get(cid)` returns a snapshot of the current
operation, or the zero-value sentinel if unknown (spec section 4.1). -/
def TrackerState.get (s : TrackerState) (c : CID) : PinSnapshot :=
  match s.ops.find c with
  | some op => { cid := op.cid, status := op.phase, error := op.error }
  | none => PinSnapshot.sentinel

/-- Modelled from the spec: fire one cancellation token in the token
store (spec section 5, Cancellation). -/
def TrackerState.fireToken (s : TrackerState) (t : Nat) : TrackerState :=
  { s with fired := fun u => if u = t then true else s.fired u }

/-- Modelled from the spec: install a fresh queued operation for `c` with
intent `i`: register a fresh unfired token, put the operation in the map
and append the cid to the intent's FIFO queue (spec sections 4.1, 4.2). -/
def TrackerState.installOp (s : TrackerState) (c : CID) (i : Intent) : TrackerState :=
  { s with
    ops := s.ops.set c { cid := c, phase := i.queuedPhase, token := s.nextToken, error := none }
    nextToken := s.nextToken + 1
    pinQueue := if i = .pin then s.pinQueue ++ [c] else s.pinQueue
    unpinQueue := if i = .unpin then s.unpinQueue ++ [c] else s.unpinQueue }

/-- Modelled from the spec: whether an existing operation makes a new
Track/Untrack call with intent `i` a no-op.  Per spec section 4.1 this is
the case when the existing operation matches the intent and is already
queued or in-flight (idempotence), or is terminal with the same intent
("leave terminal in place").  Terminal *error* phases are excluded:
sections 4.3 and 7 require Recover and SyncAll to enqueue a corrective
operation for error phases, which is exactly a Track/Untrack of the same
intent replacing the error record. -/
def Operation.absorbs (op : Operation) (i : Intent) : Bool :=
  op.phase.intent = i && !op.phase.isError

/-- Modelled from the spec: `TrackNewOperation` — the Operation Tracker's
single mutation used by both Track and Untrack (spec section 4.1).  The
replacement path is exposed as a list of the intermediate states, in
order, so that the spec's ordering requirement — "a queued operation is
cancelled before a new operation replaces it" — is visible: first the old
operation's token is fired, then the new operation is installed.  The
final element of the trace is the resulting state. -/
def TrackerState.trackTrace (s : TrackerState) (c : CID) (i : Intent) :
    List TrackerState :=
  match s.ops.find c with
  | none => [s.installOp c i]
  | some op =>
    if op.absorbs i then [s]
    else
      let s1 := s.fireToken op.token
      [s1, s1.installOp c i]

/-- Modelled from the spec: the resulting state of `TrackNewOperation`
(the last state of the replacement trace). -/
def TrackerState.track (s : TrackerState) (c : CID) (i : Intent) : TrackerState :=
  match s.ops.find c with
  | none => s.installOp c i
  | some op => if op.absorbs i then s else (s.fireToken op.token).installOp c i

/-- Modelled from the spec: `Clean(cid)` removes the operation record for
a CID (spec section 4.1). -/
def TrackerState.clean (s : TrackerState) (c : CID) : TrackerState :=
  { s with ops := s.ops.remove c }

theorem TrackerState.track_mem_trace (s : TrackerState) (c : CID) (i : Intent) :
    s.track c i ∈ s.trackTrace c i := by
  unfold TrackerState.track TrackerState.trackTrace
  cases h : s.ops.find c with
  | none => simp
  | some op => by_cases hab : op.absorbs i <;> simp [hab]

/-- A call made by a worker into the RPC Adapter:
`IPFSConnector.Pin` or `IPFSConnector.Unpin` for a CID (spec section 4.5). -/
inductive DaemonCall where
  | pin (c : CID)
  | unpin (c : CID)
  deriving DecidableEq, Repr

/-- Modelled from the spec: the dequeue half of the worker loop for the
queue of intent `i`: pop the queue head, verify the operation is still
the current one in the Operation Tracker and still in its queued phase,
transition it to the in-flight phase and call the daemon; otherwise drop
the stale queue entry without any daemon call (spec section 4.2). -/
def TrackerState.workerStart (s : TrackerState) (i : Intent) :
    TrackerState × Option DaemonCall :=
  match i, s.pinQueue, s.unpinQueue with
  | .pin, [], _ => (s, none)
  | .unpin, _, [] => (s, none)
  | .pin, c :: rest, _ =>
    let s0 := { s with pinQueue := rest }
    match s.ops.find c with
    | some op =>
      if op.phase = Intent.queuedPhase .pin then
        ({ s0 with
            ops := s.ops.set c { op with phase := Intent.inFlightPhase .pin }
            active := (c, op.token) :: s.active },
          some (.pin c))
      else (s0, none)
    | none => (s0, none)
  | .unpin, _, c :: rest =>
    let s0 := { s with unpinQueue := rest }
    match s.ops.find c with
    | some op =>
      if op.phase = Intent.queuedPhase .unpin then
        ({ s0 with
            ops := s.ops.set c { op with phase := Intent.inFlightPhase .unpin }
            active := (c, op.token) :: s.active },
          some (.unpin c))
      else (s0, none)
    | none => (s0, none)

/-- Modelled from the spec: the write-back half of the worker loop, after
the daemon call for the operation that held token `tok` returned.
`res = none` is success, `res = some e` is a daemon error.  If the
operation's cancellation context has fired, the worker leaves the phase
as whatever Track/Untrack has since installed — it does not overwrite
(spec sections 4.2 and 5, Cancellation); it only releases its slot in
the pool.  Otherwise, if the operation is still the current one for its
CID, the worker records the terminal phase. -/
def TrackerState.workerDone (s : TrackerState) (c : CID) (tok : Nat)
    (res : Option String) : TrackerState :=
  let release := s.active.filter (fun p => !(p.1 = c && p.2 = tok))
  if s.cancelledTok tok then { s with active := release }
  else
    match s.ops.find c with
    | some op =>
      if op.token = tok then
        { s with
          active := release
          ops := s.ops.set c { op with
            phase := match res with
              | none => op.phase.intent.donePhase
              | some _ => op.phase.intent.errorPhase
            error := res } }
      else { s with active := release }
    | none => { s with active := release }

/-- Modelled from the spec: `Shutdown` — fire the tracker's root
cancellation token (cancelling every operation context), discard the
queued operations, drain the worker pool, and mark the tracker shut
down; returns success.  A second call returns success without side
effect (spec sections 4.4 and 5; the tracker "enters shutdown exactly
once", section 3). -/
def TrackerState.shutdown (s : TrackerState) : TrackerState × Option String :=
  if s.isShutdown then (s, none)
  else
    ({ s with
        rootFired := true
        pinQueue := []
        unpinQueue := []
        active := []
        isShutdown := true },
      none)

/-- Modelled from the spec: the events that can interleave on a running
tracker — facade Track/Untrack for a locally allocated pin, the two
halves of a worker loop iteration, and Shutdown (spec sections 4.2, 4.4
and 5). -/
inductive Ev where
  | track (c : CID)
  | untrack (c : CID)
  | workerStart (i : Intent)
  | workerDone (c : CID) (tok : Nat) (res : Option String)
  | shutdownEv
  deriving DecidableEq, Repr

/-- Modelled from the spec: one interleaving step of the tracker system,
returning the daemon calls it performs (spec section 2, data flow). -/
def TrackerState.stepEv (s : TrackerState) : Ev → TrackerState × List DaemonCall
  | .track c => (s.track c .pin, [])
  | .untrack c => (s.track c .unpin, [])
  | .workerStart i =>
    let (s1, call) := s.workerStart i
    (s1, call.toList)
  | .workerDone c tok res => (s.workerDone c tok res, [])
  | .shutdownEv => ((s.shutdown).1, [])

/-- Modelled from the spec: run a sequence of interleaving events,
accumulating every daemon call performed along the way. -/
def TrackerState.runEv (s : TrackerState) : List Ev → TrackerState × List DaemonCall
  | [] => (s, [])
  | e :: rest =>
    let (s1, cs) := s.stepEv e
    let (s2, cs2) := s1.runEv rest
    (s2, cs ++ cs2)

/-- Modelled from the spec: the cluster's desired pin set as observed in
one snapshot (spec section 4.3, input 1): the list of desired CIDs
(`Cluster.Pins`) and, per CID, whether this peer is among the pin's
allocations. -/
structure ClusterView where
  pins : List CID
  allocatedHere : CID → Bool

/-- Whether a CID is in the cluster's desired pin set. -/
def ClusterView.desired (cl : ClusterView) (c : CID) : Bool :=
  cl.pins.contains c

/-- Modelled from the spec: the daemon's pin listing as observed in one
snapshot (spec section 4.3, input 2): the CIDs the daemon reports with a
Direct or Recursive status ("present", spec section 6). -/
structure DaemonView where
  listing : List CID

/-- Whether the daemon reports a CID as present (Direct or Recursive). -/
def DaemonView.present (dm : DaemonView) (c : CID) : Bool :=
  dm.listing.contains c

/-- Modelled from the spec: the join of the cluster view and the daemon
view for a CID with no (or only a retained success) tracker record —
rows 1, 2, 4, 5 and 6 of the join table in spec section 4.3.  `none`
means the CID is omitted from status reports. -/
def joinStatus (cl : ClusterView) (dm : DaemonView) (c : CID) : Option Phase :=
  if cl.desired c then
    if cl.allocatedHere c then
      if dm.present c then some .pinned else some .pinError
    else some .remote
  else
    if dm.present c then some .unpinError else none

/-- Modelled from the spec: per-CID reported status (spec section 4.3):
a queued, in-flight, terminal-error or remote tracker record reports the
tracker's phase (rows 3 and 7); otherwise — tracker empty, or only a
retained Pinned/Unpinned success record — the status is derived by
joining desired state and daemon listing, which is what makes drift
observable. -/
def TrackerState.status (s : TrackerState) (cl : ClusterView) (dm : DaemonView)
    (c : CID) : Option Phase :=
  match s.ops.find c with
  | some op =>
    match op.phase with
    | .pinned => joinStatus cl dm c
    | .unpinned => joinStatus cl dm c
    | ph => some ph
  | none => joinStatus cl dm c

/-- Modelled from the spec: a status is nominal when it is Pinned,
Unpinned/omitted, or Remote; every other status (queued, in-flight or
error) is non-nominal (spec sections 4.3 and 7). -/
def nonNominal : Option Phase → Bool
  | none => false
  | some .pinned => false
  | some .unpinned => false
  | some .remote => false
  | some _ => true

/-- Modelled from the spec: the corrective action SyncAll takes for one
CID (spec sections 4.3 and 7): for a status reporting an error or drift,
enqueue a pin if the CID is desired and missing, an unpin if it is
undesired and present; if daemon state already agrees with desired state
the stale terminal error record is cleaned.  Statuses that are not
error/drift (nominal, queued or in-flight) take no action. -/
def TrackerState.correctStep (s : TrackerState) (cl : ClusterView) (dm : DaemonView)
    (c : CID) : TrackerState :=
  match s.status cl dm c with
  | some .pinError =>
    if cl.desired c && !(dm.present c) then s.track c .pin
    else if !(cl.desired c) && dm.present c then s.track c .unpin
    else s.clean c
  | some .unpinError =>
    if cl.desired c && !(dm.present c) then s.track c .pin
    else if !(cl.desired c) && dm.present c then s.track c .unpin
    else s.clean c
  | _ => s

/-- Modelled from the spec: every CID known to a SyncAll pass — the union
of the cluster pin set, the daemon listing and the CIDs with a tracker
record (spec section 4.3: "recompute status for every known CID"; the
join table's tracker-only rows require the tracker's records to be
included, and `TestStatelessTracker_SyncAll` observes a CID known only
to the tracker being returned). -/
def TrackerState.knownCids (s : TrackerState) (cl : ClusterView) (dm : DaemonView) :
    List CID :=
  (cl.pins ++ dm.listing ++ s.ops.map (fun p => p.1)).dedup

/-- Modelled from the spec: the SyncAll pass over a list of CIDs:
recompute each status, collect the CIDs whose status was non-nominal at
the time of the call, and apply the corrective action for error/drift
statuses (spec section 4.3, SyncAll). -/
def TrackerState.syncAllGo (cl : ClusterView) (dm : DaemonView) :
    List CID → TrackerState → TrackerState × List CID
  | [], s => (s, [])
  | c :: cs, s =>
    let st := s.status cl dm c
    let s1 := s.correctStep cl dm c
    let (s2, r) := TrackerState.syncAllGo cl dm cs s1
    (s2, if nonNominal st then c :: r else r)

/-- Modelled from the spec: `SyncAll` — recompute status for every known
CID, enqueue corrective operations, and return the CIDs whose status was
non-nominal at the time of the call (spec section 4.3). -/
def TrackerState.syncAll (s : TrackerState) (cl : ClusterView) (dm : DaemonView) :
    TrackerState × List CID :=
  TrackerState.syncAllGo cl dm (s.knownCids cl dm) s

theorem OpMap.find_set_self (m : OpMap) (c : CID) (op : Operation) :
    (m.set c op).find c = some op := by
  simp [OpMap.set, OpMap.find, List.lookup]

theorem OpMap.find_remove_ne (m : OpMap) (c d : CID) (h : d ≠ c) :
    (m.remove c).find d = m.find d := by
  induction m with
  | nil => rfl
  | cons hd tl ih =>
    simp only [OpMap.remove, OpMap.find] at *
    by_cases hhd : hd.1 = c
    · have hne : (d == hd.1) = false := by
        simp only [beq_eq_false_iff_ne]
        intro hdc
        exact h (hdc.trans hhd)
      have hnc : (d == c) = false := by
        simp only [beq_eq_false_iff_ne]
        exact h
      simp [List.filter_cons, hhd, List.lookup, hne, hnc, ih]
    · by_cases hde : d = hd.1
      · simp [List.filter_cons, hhd, List.lookup, hde]
      · have hne : (d == hd.1) = false := by
          simp only [beq_eq_false_iff_ne]
          exact hde
        simp [List.filter_cons, hhd, List.lookup, hne, ih]

theorem OpMap.find_set_ne (m : OpMap) (c d : CID) (op : Operation) (h : d ≠ c) :
    (m.set c op).find d = m.find d := by
  have hne : (d == c) = false := by
    simp only [beq_eq_false_iff_ne]
    exact h
  have hrest := OpMap.find_remove_ne m c d h
  simp only [OpMap.remove, OpMap.find] at hrest
  simp [OpMap.set, OpMap.find, List.lookup, hne, hrest]

theorem OpMap.find_remove_self (m : OpMap) (c : CID) :
    (m.remove c).find c = none := by
  induction m with
  | nil => rfl
  | cons hd tl ih =>
    simp only [OpMap.remove, OpMap.find] at *
    by_cases hhd : hd.1 = c
    · simp [List.filter_cons, hhd, ih]
    · have hne : (c == hd.1) = false := by
        simp only [beq_eq_false_iff_ne]
        intro hdc
        exact hhd hdc.symm
      simp [List.filter_cons, hhd, List.lookup, hne, ih]

theorem TrackerState.find_track_ne (s : TrackerState) (c d : CID) (i : Intent)
    (h : d ≠ c) : (s.track c i).ops.find d = s.ops.find d := by
  unfold TrackerState.track
  cases hf : s.ops.find c with
  | none => simp [TrackerState.installOp, OpMap.find_set_ne _ _ _ _ h]
  | some op =>
    by_cases hab : op.absorbs i
    · simp [hab]
    · simp [hab, TrackerState.installOp, TrackerState.fireToken,
        OpMap.find_set_ne _ _ _ _ h]

/-- The freshly installed queued operation of intent `i` absorbs a repeat
call of the same intent. -/
theorem Operation.absorbs_queued (c : CID) (i : Intent) (tok : Nat) :
    Operation.absorbs { cid := c, phase := i.queuedPhase, token := tok, error := none } i
      = true := by
  cases i <;> rfl

/-- Installing a fresh operation makes it the current one for its CID. -/
theorem TrackerState.find_installOp_self (s : TrackerState) (c : CID) (i : Intent) :
    (s.installOp c i).ops.find c =
      some { cid := c, phase := i.queuedPhase, token := s.nextToken, error := none } := by
  simp [TrackerState.installOp, OpMap.find_set_self]

/-- Track/Untrack of intent `i` followed by the same call again is the
same as the single call: the second call is absorbed. -/
theorem TrackerState.track_track_self (s : TrackerState) (c : CID) (i : Intent) :
    (s.track c i).track c i = s.track c i := by
  cases hf : s.ops.find c with
  | none =>
    have h1 : s.track c i = s.installOp c i := by
      unfold TrackerState.track
      simp [hf]
    rw [h1]
    unfold TrackerState.track
    simp [TrackerState.find_installOp_self, Operation.absorbs_queued]
  | some op =>
    by_cases hab : op.absorbs i
    · have h1 : s.track c i = s := by
        unfold TrackerState.track
        simp [hf, hab]
      rw [h1]
      exact h1
    · have h1 : s.track c i = (s.fireToken op.token).installOp c i := by
        unfold TrackerState.track
        simp [hf, hab]
      have h2 : ((s.fireToken op.token).installOp c i).ops.find c =
          some { cid := c, phase := i.queuedPhase, token := s.nextToken, error := none } :=
        TrackerState.find_installOp_self (s.fireToken op.token) c i
      rw [h1]
      unfold TrackerState.track
      simp [h2, Operation.absorbs_queued]

/-- C7: for every CID with no operation in the Operation Tracker, `Get`
returns the zero-value sentinel snapshot, whose cid field is the
undefined CID; for every CID with an operation, `Get` returns a snapshot
of that operation. -/
theorem get_sentinel_or_snapshot (s : TrackerState) (c : CID) :
    (s.ops.find c = none →
      s.get c = PinSnapshot.sentinel ∧ (s.get c).cid = CID.undef) ∧
    (∀ op : Operation, s.ops.find c = some op →
      s.get c = { cid := op.cid, status := op.phase, error := op.error }) := by
  constructor
  · intro h
    simp [TrackerState.get, h, PinSnapshot.sentinel]
  · intro op h
    simp [TrackerState.get, h]

/-- Witness for C7: on the fresh tracker, `Get` of an untracked CID is
the sentinel; after tracking it, `Get` snapshots the operation. -/
theorem get_sentinel_or_snapshot_witness :
    TrackerState.initial.get "c1" = PinSnapshot.sentinel ∧
    (TrackerState.initial.track "c1" .pin).get "c1" =
      { cid := "c1", status := .pinQueued, error := none } :=
  ⟨((get_sentinel_or_snapshot TrackerState.initial "c1").1 rfl).1,
    (get_sentinel_or_snapshot (TrackerState.initial.track "c1" .pin) "c1").2
      { cid := "c1", phase := .pinQueued, token := 0, error := none } (by decide)⟩

/-- C5: a repeated Track with the intent of the current queued or
in-flight operation is a no-op on the Operation Tracker state (no
duplicate enqueue), and in general Track(c); Track(c) is equivalent to
Track(c). -/
theorem track_idempotent (s : TrackerState) (c : CID) (i : Intent) (op : Operation)
    (hop : s.ops.find c = some op) (hintent : op.phase.intent = i)
    (hqi : op.phase.isQueued = true ∨ op.phase.isInFlight = true) :
    s.track c i = s ∧
    ∀ (s2 : TrackerState) (d : CID) (j : Intent),
      (s2.track d j).track d j = s2.track d j := by
  refine ⟨?_, fun s2 d j => TrackerState.track_track_self s2 d j⟩
  have herr : op.phase.isError = false := by
    rcases hqi with hq | hf <;> cases hph : op.phase <;>
      simp [hph, Phase.isQueued, Phase.isInFlight, Phase.isError] at *
  have hab : op.absorbs i = true := by
    simp [Operation.absorbs, hintent, herr]
  unfold TrackerState.track
  simp [hop, hab]

/-- Witness for C5: tracking an already queued pin is a no-op. -/
theorem track_idempotent_witness :
    (TrackerState.initial.track "c1" .pin).track "c1" .pin =
      TrackerState.initial.track "c1" .pin :=
  (track_idempotent (TrackerState.initial.track "c1" .pin) "c1" .pin
    { cid := "c1", phase := .pinQueued, token := 0, error := none }
    (by decide) (by decide) (Or.inl (by decide))).1

/-- C2: a worker whose operation's cancellation context fired never
writes a phase transition into the Operation Tracker afterwards: the
write-back step leaves the Operation Map, every Get snapshot and the
token store unchanged, so the operation installed by a superseding
Track/Untrack remains the tracker's current operation for the CID. -/
theorem cancelled_worker_never_overwrites (s : TrackerState) (c : CID) (tok : Nat)
    (res : Option String) (h : s.cancelledTok tok = true) :
    (s.workerDone c tok res).ops = s.ops ∧
    (∀ d : CID, (s.workerDone c tok res).get d = s.get d) ∧
    (s.workerDone c tok res).fired = s.fired ∧
    (∀ op : Operation, s.ops.find c = some op →
      (s.workerDone c tok res).ops.find c = some op) := by
  have hw : s.workerDone c tok res =
      { s with active := s.active.filter (fun p => !(p.1 = c && p.2 = tok)) } := by
    unfold TrackerState.workerDone
    simp [h]
  rw [hw]
  exact ⟨rfl, fun d => rfl, rfl, fun op hop => hop⟩

/-- Witness for C2: after Track, Untrack cancels the pin operation's
token; a worker completing the stale pin call with a success result
leaves the superseding unpin operation in place. -/
theorem cancelled_worker_never_overwrites_witness :
    (((TrackerState.initial.track "c1" .pin).track "c1" .unpin).workerDone
        "c1" 0 none).ops.find "c1" =
      some { cid := "c1", phase := .unpinQueued, token := 1, error := none } :=
  (cancelled_worker_never_overwrites
      ((TrackerState.initial.track "c1" .pin).track "c1" .unpin) "c1" 0 none
      (by decide)).2.2.2
    { cid := "c1", phase := .unpinQueued, token := 1, error := none } (by decide)

/-- C4: Shutdown returns success; a second Shutdown on the resulting
tracker also returns success and has no side effect; after shutdown the
worker pool is drained (no active workers, both queues empty) and every
remaining operation's cancellation context is cancelled. -/
theorem shutdown_idempotent (s : TrackerState) (h : s.isShutdown = false) :
    (s.shutdown).2 = none ∧
    (s.shutdown).1.shutdown = ((s.shutdown).1, none) ∧
    (s.shutdown).1.active = [] ∧
    (s.shutdown).1.pinQueue = [] ∧
    (s.shutdown).1.unpinQueue = [] ∧
    (∀ (c : CID) (op : Operation), (s.shutdown).1.ops.find c = some op →
      (s.shutdown).1.cancelledTok op.token = true) := by
  unfold TrackerState.shutdown
  simp [h, TrackerState.cancelledTok]

/-- Witness for C4: double shutdown of a tracker holding one queued
operation. -/
theorem shutdown_idempotent_witness :
    ((TrackerState.initial.track "c1" .pin).shutdown).1.shutdown =
      (((TrackerState.initial.track "c1" .pin).shutdown).1, none) ∧
    ((TrackerState.initial.track "c1" .pin).shutdown).1.cancelledTok 0 = true :=
  ⟨(shutdown_idempotent (TrackerState.initial.track "c1" .pin) (by decide)).2.1,
    (shutdown_idempotent (TrackerState.initial.track "c1" .pin) (by decide)).2.2.2.2.2
      "c1" { cid := "c1", phase := .pinQueued, token := 0, error := none } (by decide)⟩

/-- C1: when a Track/Untrack call of the opposite intent replaces a
queued or in-flight operation, the old operation's cancellation token is
fired in every intermediate state of the replacement — in particular
before the new operation is visible through Get — Get never returns the
empty sentinel during the replacement, and the final state holds the new
queued operation with the old token cancelled. -/
theorem track_replacement_cancels_before_visible (s : TrackerState) (c : CID)
    (i : Intent) (op : Operation) (hop : s.ops.find c = some op) (hcid : op.cid = c)
    (hc : c ≠ CID.undef)
    (hqi : op.phase.isQueued = true ∨ op.phase.isInFlight = true)
    (hintent : op.phase.intent ≠ i) :
    (∀ t ∈ s.trackTrace c i, t.fired op.token = true) ∧
    (∀ t ∈ s.trackTrace c i, (t.get c).cid = c ∧ t.get c ≠ PinSnapshot.sentinel) ∧
    (s.track c i).ops.find c =
      some { cid := c, phase := i.queuedPhase, token := s.nextToken, error := none } ∧
    (s.track c i).fired op.token = true := by
  have hab : op.absorbs i = false := by
    simp [Operation.absorbs]
    intro he
    exact absurd he hintent
  have htr : s.trackTrace c i =
      [s.fireToken op.token, (s.fireToken op.token).installOp c i] := by
    unfold TrackerState.trackTrace
    simp [hop, hab]
  have htk : s.track c i = (s.fireToken op.token).installOp c i := by
    unfold TrackerState.track
    simp [hop, hab]
  have hfired1 : (s.fireToken op.token).fired op.token = true := by
    simp [TrackerState.fireToken]
  have hfired2 : ((s.fireToken op.token).installOp c i).fired op.token = true := by
    simpa [TrackerState.installOp] using hfired1
  refine ⟨?_, ?_, ?_, ?_⟩
  · intro t ht
    rw [htr] at ht
    simp only [List.mem_cons, List.mem_singleton, List.not_mem_nil, or_false] at ht
    rcases ht with rfl | rfl
    · exact hfired1
    · exact hfired2
  · intro t ht
    rw [htr] at ht
    simp only [List.mem_cons, List.mem_singleton, List.not_mem_nil, or_false] at ht
    rcases ht with rfl | rfl
    · have hfind : (s.fireToken op.token).ops.find c = some op := hop
      constructor
      · simp [TrackerState.get, hfind, hcid]
      · simp [TrackerState.get, hfind, PinSnapshot.sentinel]
        intro heq
        exact absurd (hcid ▸ heq) hc
    · have hfind : ((s.fireToken op.token).installOp c i).ops.find c =
          some { cid := c, phase := i.queuedPhase, token := s.nextToken, error := none } := by
        simp [TrackerState.installOp, TrackerState.fireToken, OpMap.find_set_self]
      constructor
      · simp [TrackerState.get, hfind]
      · simp [TrackerState.get, hfind, PinSnapshot.sentinel]
        intro heq
        exact absurd heq hc
  · rw [htk]
    simp [TrackerState.installOp, TrackerState.fireToken, OpMap.find_set_self]
  · rw [htk]
    exact hfired2

/-- Witness for C1: untracking a freshly queued pin fires token 0 in the
final state and installs the unpin-queued replacement with token 1. -/
theorem track_replacement_cancels_before_visible_witness :
    ((TrackerState.initial.track "a" .pin).track "a" .unpin).ops.find "a" =
      some { cid := "a", phase := .unpinQueued, token := 1, error := none } ∧
    ((TrackerState.initial.track "a" .pin).track "a" .unpin).fired 0 = true :=
  ⟨(track_replacement_cancels_before_visible (TrackerState.initial.track "a" .pin)
      "a" .unpin { cid := "a", phase := .pinQueued, token := 0, error := none }
      (by decide) rfl (by decide) (Or.inl (by decide)) (by decide)).2.2.1,
    (track_replacement_cancels_before_visible (TrackerState.initial.track "a" .pin)
      "a" .unpin { cid := "a", phase := .pinQueued, token := 0, error := none }
      (by decide) rfl (by decide) (Or.inl (by decide)) (by decide)).2.2.2⟩

/-- Any operation that is current for `c` right after a Track/Untrack of
intent `i` carries intent `i`: either the call was absorbed by a
matching operation, or a fresh queued operation of intent `i` was
installed. -/
theorem TrackerState.track_find_self_intent (s : TrackerState) (c : CID) (i : Intent)
    (op' : Operation) (h : (s.track c i).ops.find c = some op') :
    op'.phase.intent = i := by
  unfold TrackerState.track at h
  cases hf : s.ops.find c with
  | none =>
    rw [hf] at h
    simp only at h
    rw [TrackerState.find_installOp_self] at h
    injection h with h
    subst h
    cases i <;> rfl
  | some op =>
    rw [hf] at h
    by_cases hab : op.absorbs i
    · simp only [hab, if_true] at h
      rw [hf] at h
      injection h with h
      subst h
      simp only [Operation.absorbs, Bool.and_eq_true, decide_eq_true_eq] at hab
      exact hab.1
    · simp only [hab, Bool.false_eq_true, if_false] at h
      rw [TrackerState.find_installOp_self] at h
      injection h with h
      subst h
      cases i <;> rfl

/-- No current operation for `fast` is in the PinQueued phase: the
invariant that keeps the pin workers from ever invoking
`IPFSConnector.Pin(fast)`. -/
def noPinQueued (s : TrackerState) (fast : CID) : Prop :=
  ∀ op : Operation, s.ops.find fast = some op → op.phase ≠ .pinQueued

/-- One interleaving step other than Track(fast) preserves the
`noPinQueued` invariant and performs no `IPFSConnector.Pin(fast)` call. -/
theorem stepEv_no_pin_call (s : TrackerState) (fast : CID) (e : Ev)
    (hinv : noPinQueued s fast) (hne : e ≠ Ev.track fast) :
    noPinQueued (s.stepEv e).1 fast ∧ DaemonCall.pin fast ∉ (s.stepEv e).2 := by
  cases e with
  | track c =>
    have hcf : c ≠ fast := by
      intro hcc
      exact hne (by rw [hcc])
    refine ⟨?_, by simp [TrackerState.stepEv]⟩
    intro op hop
    have : (s.track c .pin).ops.find fast = s.ops.find fast :=
      TrackerState.find_track_ne s c fast .pin (Ne.symm hcf)
    simp only [TrackerState.stepEv] at hop
    rw [this] at hop
    exact hinv op hop
  | untrack c =>
    refine ⟨?_, by simp [TrackerState.stepEv]⟩
    intro op hop
    simp only [TrackerState.stepEv] at hop
    by_cases hcf : c = fast
    · subst hcf
      have := TrackerState.track_find_self_intent s c .unpin op hop
      intro hpq
      rw [hpq] at this
      exact absurd this (by decide)
    · rw [TrackerState.find_track_ne s c fast .unpin (Ne.symm hcf)] at hop
      exact hinv op hop
  | workerDone c tok res =>
    refine ⟨?_, by simp [TrackerState.stepEv]⟩
    intro op hop
    simp only [TrackerState.stepEv] at hop
    unfold TrackerState.workerDone at hop
    by_cases hcanc : s.cancelledTok tok
    · simp only [hcanc, if_true] at hop
      exact hinv op hop
    · simp only [hcanc, Bool.false_eq_true, if_false] at hop
      cases hf : s.ops.find c with
      | none =>
        rw [hf] at hop
        exact hinv op hop
      | some op0 =>
        rw [hf] at hop
        by_cases htok : op0.token = tok
        · simp only [htok, if_true] at hop
          by_cases hcf : c = fast
          · subst hcf
            rw [OpMap.find_set_self] at hop
            injection hop with hop
            subst hop
            cases hint : op0.phase.intent <;> cases res <;>
              simp [Intent.donePhase, Intent.errorPhase, hint]
          · rw [OpMap.find_set_ne _ _ _ _ (Ne.symm hcf)] at hop
            exact hinv op hop
        · simp only [htok, Bool.false_eq_true, if_false] at hop
          exact hinv op hop
  | shutdownEv =>
    refine ⟨?_, by simp [TrackerState.stepEv]⟩
    intro op hop
    simp only [TrackerState.stepEv] at hop
    unfold TrackerState.shutdown at hop
    by_cases hsd : s.isShutdown <;>
      simp only [hsd, Bool.false_eq_true, if_true, if_false] at hop <;>
      exact hinv op hop
  | workerStart i =>
    cases i with
    | pin =>
      cases hpq : s.pinQueue with
      | nil =>
        have hws : s.workerStart .pin = (s, none) := by
          unfold TrackerState.workerStart
          rw [hpq]
        constructor
        · intro op hop
          simp only [TrackerState.stepEv, hws] at hop
          exact hinv op hop
        · simp [TrackerState.stepEv, hws]
      | cons c rest =>
        cases hf : s.ops.find c with
        | none =>
          have hws : s.workerStart .pin = ({ s with pinQueue := rest }, none) := by
            unfold TrackerState.workerStart
            rw [hpq]
            simp [hf]
          constructor
          · intro op hop
            simp only [TrackerState.stepEv, hws] at hop
            exact hinv op hop
          · simp [TrackerState.stepEv, hws]
        | some op0 =>
          by_cases hph : op0.phase = Intent.queuedPhase .pin
          · have hcf : c ≠ fast := by
              intro hcc
              subst hcc
              exact hinv op0 hf hph
            have hws : s.workerStart .pin =
                ({ s with
                    pinQueue := rest,
                    ops := s.ops.set c { op0 with phase := Intent.inFlightPhase .pin },
                    active := (c, op0.token) :: s.active },
                  some (.pin c)) := by
              unfold TrackerState.workerStart
              rw [hpq]
              simp [hf, hph]
            constructor
            · intro op hop
              simp only [TrackerState.stepEv, hws] at hop
              rw [OpMap.find_set_ne _ _ _ _ (Ne.symm hcf)] at hop
              exact hinv op hop
            · simp [TrackerState.stepEv, hws]
              intro hcc
              exact hcf hcc.symm
          · have hws : s.workerStart .pin = ({ s with pinQueue := rest }, none) := by
              unfold TrackerState.workerStart
              rw [hpq]
              simp [hf, hph]
            constructor
            · intro op hop
              simp only [TrackerState.stepEv, hws] at hop
              exact hinv op hop
            · simp [TrackerState.stepEv, hws]
    | unpin =>
      cases hpq : s.unpinQueue with
      | nil =>
        have hws : s.workerStart .unpin = (s, none) := by
          unfold TrackerState.workerStart
          rw [hpq]
        constructor
        · intro op hop
          simp only [TrackerState.stepEv, hws] at hop
          exact hinv op hop
        · simp [TrackerState.stepEv, hws]
      | cons c rest =>
        cases hf : s.ops.find c with
        | none =>
          have hws : s.workerStart .unpin = ({ s with unpinQueue := rest }, none) := by
            unfold TrackerState.workerStart
            rw [hpq]
            simp [hf]
          constructor
          · intro op hop
            simp only [TrackerState.stepEv, hws] at hop
            exact hinv op hop
          · simp [TrackerState.stepEv, hws]
        | some op0 =>
          by_cases hph : op0.phase = Intent.queuedPhase .unpin
          · have hws : s.workerStart .unpin =
                ({ s with
                    unpinQueue := rest,
                    ops := s.ops.set c { op0 with phase := Intent.inFlightPhase .unpin },
                    active := (c, op0.token) :: s.active },
                  some (.unpin c)) := by
              unfold TrackerState.workerStart
              rw [hpq]
              simp [hf, hph]
            constructor
            · intro op hop
              simp only [TrackerState.stepEv, hws] at hop
              by_cases hcf : c = fast
              · subst hcf
                rw [OpMap.find_set_self] at hop
                injection hop with hop
                subst hop
                simp [Intent.inFlightPhase]
              · rw [OpMap.find_set_ne _ _ _ _ (Ne.symm hcf)] at hop
                exact hinv op hop
            · simp [TrackerState.stepEv, hws]
          · have hws : s.workerStart .unpin = ({ s with unpinQueue := rest }, none) := by
              unfold TrackerState.workerStart
              rw [hpq]
              simp [hf, hph]
            constructor
            · intro op hop
              simp only [TrackerState.stepEv, hws] at hop
              exact hinv op hop
            · simp [TrackerState.stepEv, hws]

/-- Running any event sequence that contains no Track(fast) from a state
satisfying `noPinQueued` never performs an `IPFSConnector.Pin(fast)`
call. -/
theorem runEv_no_pin_call (fast : CID) (evs : List Ev) :
    ∀ s : TrackerState, noPinQueued s fast → Ev.track fast ∉ evs →
      DaemonCall.pin fast ∉ (s.runEv evs).2 := by
  induction evs with
  | nil =>
    intro s _ _
    simp [TrackerState.runEv]
  | cons e rest ih =>
    intro s hinv hne
    have hne1 : e ≠ Ev.track fast := by
      intro hee
      exact hne (by rw [hee]; exact List.mem_cons_self _ _)
    have hrest : Ev.track fast ∉ rest := by
      intro hmem
      exact hne (List.mem_cons_of_mem _ hmem)
    have hstep := stepEv_no_pin_call s fast e hinv hne1
    have hrec := ih (s.stepEv e).1 hstep.1 hrest
    simp only [TrackerState.runEv]
    intro hmem
    rw [List.mem_append] at hmem
    rcases hmem with hmem | hmem
    · exact hstep.2 hmem
    · exact hrec hmem

/-- C3: untracking a pin whose operation is still in the PinQueued phase
supersedes the queued operation with an unpin-queued one, and from then
on — under any interleaving of worker steps, shutdown and calls for
other CIDs, with no new Track for this CID — `IPFSConnector.Pin` is
never invoked for this CID. -/
theorem untrack_queued_prevents_pin_call (s : TrackerState) (fast : CID)
    (op : Operation) (hop : s.ops.find fast = some op)
    (hq : op.phase = .pinQueued) :
    (∃ op2 : Operation, (s.track fast .unpin).ops.find fast = some op2 ∧
      op2.phase = .unpinQueued) ∧
    ∀ evs : List Ev, Ev.track fast ∉ evs →
      DaemonCall.pin fast ∉ ((s.track fast .unpin).runEv evs).2 := by
  have hinv : noPinQueued (s.track fast .unpin) fast := by
    intro op' hop' hpq
    have hi := TrackerState.track_find_self_intent s fast .unpin op' hop'
    rw [hpq] at hi
    exact absurd hi (by decide)
  constructor
  · have hab : op.absorbs .unpin = false := by
      simp [Operation.absorbs, hq, Phase.intent]
    have htk : s.track fast .unpin = (s.fireToken op.token).installOp fast .unpin := by
      unfold TrackerState.track
      simp [hop, hab]
    exact ⟨_, by rw [htk]; exact TrackerState.find_installOp_self _ _ _, rfl⟩
  · intro evs hne
    exact runEv_no_pin_call fast evs _ hinv hne

/-- Witness for C3: with one pin worker busy pinning "slow", a queued
"fast" pin is untracked; running further worker steps never calls
`IPFSConnector.Pin("fast")`. -/
theorem untrack_queued_prevents_pin_call_witness :
    DaemonCall.pin "fast" ∉
      (((((TrackerState.initial.track "slow" .pin).workerStart .pin).1.track
            "fast" .pin).track "fast" .unpin).runEv
        [.workerStart .pin, .workerStart .unpin, .workerDone "slow" 0 none]).2 :=
  (untrack_queued_prevents_pin_call
      (((TrackerState.initial.track "slow" .pin).workerStart .pin).1.track "fast" .pin)
      "fast" { cid := "fast", phase := .pinQueued, token := 1, error := none }
      (by decide) rfl).2
    [.workerStart .pin, .workerStart .unpin, .workerDone "slow" 0 none] (by decide)

theorem TrackerState.track_absorbed (s : TrackerState) (c : CID) (i : Intent)
    (op : Operation) (hf : s.ops.find c = some op) (hab : op.absorbs i = true) :
    s.track c i = s := by
  unfold TrackerState.track
  simp [hf, hab]

/-- The reported status of a CID depends only on its entry in the
Operation Map (and on the two views). -/
theorem TrackerState.status_congr (s t : TrackerState) (cl : ClusterView)
    (dm : DaemonView) (c : CID) (h : s.ops.find c = t.ops.find c) :
    s.status cl dm c = t.status cl dm c := by
  unfold TrackerState.status
  rw [h]

/-- Removing an absent key leaves the Operation Map unchanged. -/
theorem OpMap.remove_eq_of_find_none (m : OpMap) (c : CID) (h : m.find c = none) :
    m.remove c = m := by
  induction m with
  | nil => rfl
  | cons hd tl ih =>
    simp only [OpMap.find, List.lookup] at h
    cases hbeq : c == hd.1 with
    | true => rw [hbeq] at h; cases h
    | false =>
      rw [hbeq] at h
      simp only at h
      have hcne : c ≠ hd.1 := by
        intro he
        rw [he] at hbeq
        simp at hbeq
      have hne : (hd.1 != c) = true := bne_iff_ne.mpr (fun he => hcne he.symm)
      have htl : OpMap.remove tl c = tl := ih h
      simp only [OpMap.remove, List.filter_cons, hne, if_true]
      simp only [OpMap.remove] at htl
      rw [htl]

/-- A key is listed in the Operation Map exactly when `find` succeeds. -/
theorem OpMap.mem_map_fst_iff_find (m : OpMap) (c : CID) :
    c ∈ m.map (fun p => p.1) ↔ m.find c ≠ none := by
  induction m with
  | nil => simp [OpMap.find, List.lookup]
  | cons hd tl ih =>
    simp only [List.map_cons, List.mem_cons, OpMap.find, List.lookup]
    constructor
    · intro h
      rcases h with h | h
      · have : (c == hd.1) = true := by simp [h]
        rw [this]
        simp
      · rw [OpMap.find] at ih
        cases hbeq : c == hd.1
        · simp only [hbeq]
          exact ih.mp h
        · simp
    · intro h
      cases hbeq : c == hd.1 with
      | true =>
        left
        exact eq_of_beq hbeq
      | false =>
        right
        rw [OpMap.find] at ih
        rw [hbeq] at h
        simp only at h
        exact ih.mpr h

/-- A corrective step for one CID does not change any other CID's entry
in the Operation Map. -/
theorem TrackerState.find_correctStep_ne (s : TrackerState) (cl : ClusterView)
    (dm : DaemonView) (c d : CID) (h : d ≠ c) :
    (s.correctStep cl dm c).ops.find d = s.ops.find d := by
  unfold TrackerState.correctStep
  cases hst : s.status cl dm c with
  | none => rfl
  | some ph =>
    cases ph <;> simp only <;>
      first
      | rfl
      | (by_cases h1 : cl.desired c && !(dm.present c)
         · simp only [h1, if_true]
           exact TrackerState.find_track_ne s c d .pin h
         · simp only [h1, Bool.false_eq_true, if_false]
           by_cases h2 : !(cl.desired c) && dm.present c
           · simp only [h2, if_true]
             exact TrackerState.find_track_ne s c d .unpin h
           · simp only [h2, Bool.false_eq_true, if_false, TrackerState.clean]
             exact OpMap.find_remove_ne s.ops c d h)

/-- Unfolding equation for one step of the SyncAll pass. -/
theorem TrackerState.syncAllGo_cons (cl : ClusterView) (dm : DaemonView) (c : CID)
    (cs : List CID) (s : TrackerState) :
    TrackerState.syncAllGo cl dm (c :: cs) s =
      ((TrackerState.syncAllGo cl dm cs (s.correctStep cl dm c)).1,
        if nonNominal (s.status cl dm c)
        then c :: (TrackerState.syncAllGo cl dm cs (s.correctStep cl dm c)).2
        else (TrackerState.syncAllGo cl dm cs (s.correctStep cl dm c)).2) := by
  simp [TrackerState.syncAllGo]

/-- The SyncAll pass does not change the Operation Map entry of a CID
outside the processed list. -/
theorem TrackerState.find_syncAllGo_ne (cl : ClusterView) (dm : DaemonView) :
    ∀ (l : List CID) (s : TrackerState) (d : CID), d ∉ l →
      ((TrackerState.syncAllGo cl dm l s).1).ops.find d = s.ops.find d := by
  intro l
  induction l with
  | nil => intro s d _; rfl
  | cons c cs ih =>
    intro s d hd
    have hdc : d ≠ c := fun he => hd (he ▸ List.mem_cons_self c cs)
    have hdcs : d ∉ cs := fun hm => hd (List.mem_cons_of_mem c hm)
    rw [TrackerState.syncAllGo_cons]
    simp only
    rw [ih (s.correctStep cl dm c) d hdcs]
    exact TrackerState.find_correctStep_ne s cl dm c d hdc

theorem TrackerState.track_fresh (s : TrackerState) (c : CID) (i : Intent)
    (hf : s.ops.find c = none) : s.track c i = s.installOp c i := by
  unfold TrackerState.track
  simp [hf]

theorem TrackerState.track_replaced (s : TrackerState) (c : CID) (i : Intent)
    (op : Operation) (hf : s.ops.find c = some op) (hab : op.absorbs i = false) :
    s.track c i = (s.fireToken op.token).installOp c i := by
  unfold TrackerState.track
  simp [hf, hab]

/-- Whether the corrective action for a CID whose recomputed status is
`st` and whose Operation Map entry is `o` leaves the state unchanged:
this is the case for non-error statuses, for an error status whose
corrective Track/Untrack is absorbed by the existing operation, and for
an error status whose Clean finds no record. -/
def stepNoop (cl : ClusterView) (dm : DaemonView) (c : CID) (st : Option Phase)
    (o : Option Operation) : Bool :=
  match st with
  | some .pinError =>
    if cl.desired c && !(dm.present c) then
      match o with
      | some op => op.absorbs .pin
      | none => false
    else if !(cl.desired c) && dm.present c then
      match o with
      | some op => op.absorbs .unpin
      | none => false
    else o.isNone
  | some .unpinError =>
    if cl.desired c && !(dm.present c) then
      match o with
      | some op => op.absorbs .pin
      | none => false
    else if !(cl.desired c) && dm.present c then
      match o with
      | some op => op.absorbs .unpin
      | none => false
    else o.isNone
  | _ => true

/-- If `stepNoop` holds of a CID's status and Operation Map entry, the
corrective step leaves the state unchanged. -/
theorem TrackerState.correctStep_eq_of_stepNoop (s : TrackerState) (cl : ClusterView)
    (dm : DaemonView) (c : CID)
    (h : stepNoop cl dm c (s.status cl dm c) (s.ops.find c) = true) :
    s.correctStep cl dm c = s := by
  unfold TrackerState.correctStep
  cases hst : s.status cl dm c with
  | none => rfl
  | some ph =>
    rw [hst] at h
    cases ph <;> try rfl
    case pinError =>
      unfold stepNoop at h
      by_cases h1 : cl.desired c && !(dm.present c)
      · simp only [h1, if_true] at h ⊢
        cases hf : s.ops.find c with
        | none => rw [hf] at h; cases h
        | some op =>
          rw [hf] at h
          simp only at h
          exact TrackerState.track_absorbed s c .pin op hf h
      · simp only [h1, Bool.false_eq_true, if_false] at h ⊢
        by_cases h2 : !(cl.desired c) && dm.present c
        · simp only [h2, if_true] at h ⊢
          cases hf : s.ops.find c with
          | none => rw [hf] at h; cases h
          | some op =>
            rw [hf] at h
            simp only at h
            exact TrackerState.track_absorbed s c .unpin op hf h
        · simp only [h2, Bool.false_eq_true, if_false] at h ⊢
          have hfn : s.ops.find c = none := by
            cases hf : s.ops.find c with
            | none => rfl
            | some op => rw [hf] at h; cases h
          show s.clean c = s
          unfold TrackerState.clean
          rw [OpMap.remove_eq_of_find_none s.ops c hfn]
    case unpinError =>
      unfold stepNoop at h
      by_cases h1 : cl.desired c && !(dm.present c)
      · simp only [h1, if_true] at h ⊢
        cases hf : s.ops.find c with
        | none => rw [hf] at h; cases h
        | some op =>
          rw [hf] at h
          simp only at h
          exact TrackerState.track_absorbed s c .pin op hf h
      · simp only [h1, Bool.false_eq_true, if_false] at h ⊢
        by_cases h2 : !(cl.desired c) && dm.present c
        · simp only [h2, if_true] at h ⊢
          cases hf : s.ops.find c with
          | none => rw [hf] at h; cases h
          | some op =>
            rw [hf] at h
            simp only at h
            exact TrackerState.track_absorbed s c .unpin op hf h
        · simp only [h2, Bool.false_eq_true, if_false] at h ⊢
          have hfn : s.ops.find c = none := by
            cases hf : s.ops.find c with
            | none => rfl
            | some op => rw [hf] at h; cases h
          show s.clean c = s
          unfold TrackerState.clean
          rw [OpMap.remove_eq_of_find_none s.ops c hfn]

/-- The status of a fresh queued operation is its queued phase. -/
theorem TrackerState.status_installOp (s : TrackerState) (cl : ClusterView)
    (dm : DaemonView) (c : CID) (i : Intent) :
    (s.installOp c i).status cl dm c = some i.queuedPhase := by
  unfold TrackerState.status
  rw [TrackerState.find_installOp_self]
  cases i <;> rfl

/-- After a corrective step, the CID's own status and Operation Map entry
satisfy `stepNoop`: a second corrective step for this CID will leave the
state unchanged. -/
theorem TrackerState.stepNoop_after_correctStep (s : TrackerState) (cl : ClusterView)
    (dm : DaemonView) (c : CID) :
    stepNoop cl dm c ((s.correctStep cl dm c).status cl dm c)
      ((s.correctStep cl dm c).ops.find c) = true := by
  unfold TrackerState.correctStep
  cases hst : s.status cl dm c with
  | none =>
    rw [hst]
    unfold stepNoop
    rfl
  | some ph =>
    cases ph <;> try (rw [hst]; unfold stepNoop; rfl)
    case pinError =>
      by_cases h1 : cl.desired c && !(dm.present c)
      · simp only [h1, if_true]
        cases hf : s.ops.find c with
        | none =>
          rw [TrackerState.track_fresh s c .pin hf]
          rw [TrackerState.status_installOp, TrackerState.find_installOp_self]
          rfl
        | some op =>
          cases hab : op.absorbs .pin with
          | true =>
            rw [TrackerState.track_absorbed s c .pin op hf hab, hst, hf]
            unfold stepNoop
            simp only [h1, if_true]
            exact hab
          | false =>
            rw [TrackerState.track_replaced s c .pin op hf hab]
            rw [TrackerState.status_installOp, TrackerState.find_installOp_self]
            rfl
      · simp only [h1, Bool.false_eq_true, if_false]
        by_cases h2 : !(cl.desired c) && dm.present c
        · simp only [h2, if_true]
          cases hf : s.ops.find c with
          | none =>
            rw [TrackerState.track_fresh s c .unpin hf]
            rw [TrackerState.status_installOp, TrackerState.find_installOp_self]
            rfl
          | some op =>
            cases hab : op.absorbs .unpin with
            | true =>
              rw [TrackerState.track_absorbed s c .unpin op hf hab, hst, hf]
              unfold stepNoop
              simp only [h1, Bool.false_eq_true, if_false, h2, if_true]
              exact hab
            | false =>
              rw [TrackerState.track_replaced s c .unpin op hf hab]
              rw [TrackerState.status_installOp, TrackerState.find_installOp_self]
              rfl
        · simp only [h2, Bool.false_eq_true, if_false]
          have hfr : (s.clean c).ops.find c = none := OpMap.find_remove_self s.ops c
          have hstc : (s.clean c).status cl dm c = joinStatus cl dm c := by
            unfold TrackerState.status
            rw [hfr]
          rw [hstc, hfr]
          unfold joinStatus
          cases hd : cl.desired c with
          | true =>
            cases hp : dm.present c with
            | false =>
              have hcon : (cl.desired c && !dm.present c) = true := by
                rw [hd, hp]
                rfl
              exact absurd hcon h1
            | true =>
              simp only [hd, if_true, hp]
              cases cl.allocatedHere c <;> simp [stepNoop]
          | false =>
            cases hp : dm.present c with
            | true =>
              have hcon : (!cl.desired c && dm.present c) = true := by
                rw [hd, hp]
                rfl
              exact absurd hcon h2
            | false =>
              simp [hd, hp, stepNoop]
    case unpinError =>
      by_cases h1 : cl.desired c && !(dm.present c)
      · simp only [h1, if_true]
        cases hf : s.ops.find c with
        | none =>
          rw [TrackerState.track_fresh s c .pin hf]
          rw [TrackerState.status_installOp, TrackerState.find_installOp_self]
          rfl
        | some op =>
          cases hab : op.absorbs .pin with
          | true =>
            rw [TrackerState.track_absorbed s c .pin op hf hab, hst, hf]
            unfold stepNoop
            simp only [h1, if_true]
            exact hab
          | false =>
            rw [TrackerState.track_replaced s c .pin op hf hab]
            rw [TrackerState.status_installOp, TrackerState.find_installOp_self]
            rfl
      · simp only [h1, Bool.false_eq_true, if_false]
        by_cases h2 : !(cl.desired c) && dm.present c
        · simp only [h2, if_true]
          cases hf : s.ops.find c with
          | none =>
            rw [TrackerState.track_fresh s c .unpin hf]
            rw [TrackerState.status_installOp, TrackerState.find_installOp_self]
            rfl
          | some op =>
            cases hab : op.absorbs .unpin with
            | true =>
              rw [TrackerState.track_absorbed s c .unpin op hf hab, hst, hf]
              unfold stepNoop
              simp only [h1, Bool.false_eq_true, if_false, h2, if_true]
              exact hab
            | false =>
              rw [TrackerState.track_replaced s c .unpin op hf hab]
              rw [TrackerState.status_installOp, TrackerState.find_installOp_self]
              rfl
        · simp only [h2, Bool.false_eq_true, if_false]
          have hfr : (s.clean c).ops.find c = none := OpMap.find_remove_self s.ops c
          have hstc : (s.clean c).status cl dm c = joinStatus cl dm c := by
            unfold TrackerState.status
            rw [hfr]
          rw [hstc, hfr]
          unfold joinStatus
          cases hd : cl.desired c with
          | true =>
            cases hp : dm.present c with
            | false =>
              have hcon : (cl.desired c && !dm.present c) = true := by
                rw [hd, hp]
                rfl
              exact absurd hcon h1
            | true =>
              simp only [hd, if_true, hp]
              cases cl.allocatedHere c <;> simp [stepNoop]
          | false =>
            cases hp : dm.present c with
            | true =>
              have hcon : (!cl.desired c && dm.present c) = true := by
                rw [hd, hp]
                rfl
              exact absurd hcon h2
            | false =>
              simp [hd, hp, stepNoop]

/-- The SyncAll pass returns exactly the CIDs of the processed list whose
status was non-nominal in the state at the start of the pass. -/
theorem TrackerState.syncAllGo_ret (cl : ClusterView) (dm : DaemonView) :
    ∀ (l : List CID), l.Nodup → ∀ s : TrackerState,
      (TrackerState.syncAllGo cl dm l s).2 =
        l.filter (fun c => nonNominal (s.status cl dm c)) := by
  intro l
  induction l with
  | nil => intro _ s; rfl
  | cons c cs ih =>
    intro hnd s
    have hne : c ∉ cs := (List.nodup_cons.mp hnd).1
    have hnd2 : cs.Nodup := (List.nodup_cons.mp hnd).2
    rw [TrackerState.syncAllGo_cons]
    simp only
    rw [ih hnd2 (s.correctStep cl dm c)]
    have hcong : ∀ d ∈ cs,
        nonNominal ((s.correctStep cl dm c).status cl dm d) =
          nonNominal (s.status cl dm d) := by
      intro d hd
      have hdc : d ≠ c := fun he => hne (he ▸ hd)
      rw [TrackerState.status_congr (s.correctStep cl dm c) s cl dm d
        (TrackerState.find_correctStep_ne s cl dm c d hdc)]
    rw [List.filter_congr hcong, List.filter_cons]

/-- When every corrective step of the list is a no-op, the SyncAll pass
leaves the state unchanged and just filters the non-nominal CIDs. -/
theorem TrackerState.syncAllGo_of_noop (cl : ClusterView) (dm : DaemonView) :
    ∀ (l : List CID) (s : TrackerState), (∀ c ∈ l, s.correctStep cl dm c = s) →
      TrackerState.syncAllGo cl dm l s =
        (s, l.filter (fun c => nonNominal (s.status cl dm c))) := by
  intro l
  induction l with
  | nil => intro s _; rfl
  | cons c cs ih =>
    intro s hno
    have hc := hno c (List.mem_cons_self c cs)
    rw [TrackerState.syncAllGo_cons, hc,
      ih s (fun d hd => hno d (List.mem_cons_of_mem c hd)), List.filter_cons]

/-- After a SyncAll pass over a duplicate-free list, the corrective step
for any processed CID is a no-op on the resulting state. -/
theorem TrackerState.syncAllGo_fixes (cl : ClusterView) (dm : DaemonView) :
    ∀ (l : List CID), l.Nodup → ∀ (s : TrackerState) (c : CID), c ∈ l →
      ((TrackerState.syncAllGo cl dm l s).1).correctStep cl dm c =
        (TrackerState.syncAllGo cl dm l s).1 := by
  intro l
  induction l with
  | nil => intro _ s c hc; cases hc
  | cons c0 cs ih =>
    intro hnd s c hc
    have hne : c0 ∉ cs := (List.nodup_cons.mp hnd).1
    have hnd2 : cs.Nodup := (List.nodup_cons.mp hnd).2
    rw [TrackerState.syncAllGo_cons]
    simp only
    rcases List.mem_cons.mp hc with rfl | hcs
    · have hfind : ((TrackerState.syncAllGo cl dm cs (s.correctStep cl dm c)).1).ops.find c =
          (s.correctStep cl dm c).ops.find c :=
        TrackerState.find_syncAllGo_ne cl dm cs (s.correctStep cl dm c) c hne
      have hstat : ((TrackerState.syncAllGo cl dm cs (s.correctStep cl dm c)).1).status cl dm c =
          (s.correctStep cl dm c).status cl dm c :=
        TrackerState.status_congr _ _ cl dm c hfind
      apply TrackerState.correctStep_eq_of_stepNoop
      rw [hstat, hfind]
      exact TrackerState.stepNoop_after_correctStep s cl dm c
    · exact ih hnd2 (s.correctStep cl dm c0) c hcs

/-- Every CID known after a SyncAll pass was already known before it:
the pass never creates operations for new CIDs. -/
theorem TrackerState.knownCids_syncAll_subset (s : TrackerState) (cl : ClusterView)
    (dm : DaemonView) :
    ∀ c ∈ ((s.syncAll cl dm).1).knownCids cl dm, c ∈ s.knownCids cl dm := by
  intro c hc
  by_cases hl : c ∈ s.knownCids cl dm
  · exact hl
  · exfalso
    unfold TrackerState.knownCids at hc
    rw [List.mem_dedup, List.mem_append, List.mem_append] at hc
    rcases hc with (hc | hc) | hc
    · exact hl (by
        unfold TrackerState.knownCids
        rw [List.mem_dedup, List.mem_append, List.mem_append]
        exact Or.inl (Or.inl hc))
    · exact hl (by
        unfold TrackerState.knownCids
        rw [List.mem_dedup, List.mem_append, List.mem_append]
        exact Or.inl (Or.inr hc))
    · have hfind : ((s.syncAll cl dm).1).ops.find c = s.ops.find c :=
        TrackerState.find_syncAllGo_ne cl dm (s.knownCids cl dm) s c hl
      have hnn : s.ops.find c ≠ none := by
        rw [← hfind]
        exact (OpMap.mem_map_fst_iff_find _ c).mp hc
      have hmem : c ∈ s.ops.map (fun p => p.1) :=
        (OpMap.mem_map_fst_iff_find _ c).mpr hnn
      exact hl (by
        unfold TrackerState.knownCids
        rw [List.mem_dedup, List.mem_append, List.mem_append]
        exact Or.inr hmem)

/-- C6: SyncAll recomputes status over all known CIDs and returns exactly
those whose status was non-nominal at the time of the call; when no
status is non-nominal it returns the empty list; and with no intervening
change, a second SyncAll leaves the tracker state fixed, so from the
second call on the returned set is stable. -/
theorem syncAll_exact_and_stable (s : TrackerState) (cl : ClusterView)
    (dm : DaemonView) :
    (s.syncAll cl dm).2 =
      (s.knownCids cl dm).filter (fun c => nonNominal (s.status cl dm c)) ∧
    ((∀ c ∈ s.knownCids cl dm, nonNominal (s.status cl dm c) = false) →
      (s.syncAll cl dm).2 = []) ∧
    ((s.syncAll cl dm).1.syncAll cl dm).1 = (s.syncAll cl dm).1 ∧
    (((s.syncAll cl dm).1.syncAll cl dm).1.syncAll cl dm).2 =
      ((s.syncAll cl dm).1.syncAll cl dm).2 := by
  have hnd : (s.knownCids cl dm).Nodup := by
    unfold TrackerState.knownCids
    exact List.nodup_dedup _
  have hret : (s.syncAll cl dm).2 =
      (s.knownCids cl dm).filter (fun c => nonNominal (s.status cl dm c)) :=
    TrackerState.syncAllGo_ret cl dm (s.knownCids cl dm) hnd s
  have hfixes : ∀ c ∈ ((s.syncAll cl dm).1).knownCids cl dm,
      ((s.syncAll cl dm).1).correctStep cl dm c = (s.syncAll cl dm).1 := by
    intro c hc
    exact TrackerState.syncAllGo_fixes cl dm (s.knownCids cl dm) hnd s c
      (TrackerState.knownCids_syncAll_subset s cl dm c hc)
  have hsecond : (s.syncAll cl dm).1.syncAll cl dm =
      ((s.syncAll cl dm).1,
        (((s.syncAll cl dm).1).knownCids cl dm).filter
          (fun c => nonNominal (((s.syncAll cl dm).1).status cl dm c))) :=
    TrackerState.syncAllGo_of_noop cl dm (((s.syncAll cl dm).1).knownCids cl dm)
      (s.syncAll cl dm).1 hfixes
  have hstate : ((s.syncAll cl dm).1.syncAll cl dm).1 = (s.syncAll cl dm).1 := by
    rw [hsecond]
  refine ⟨hret, ?_, hstate, ?_⟩
  · intro hall
    rw [hret]
    exact List.filter_eq_nil_iff.mpr (fun c hc => by rw [hall c hc]; exact Bool.false_ne_true)
  · rw [hstate]

/-- Witness for C6: on the fresh tracker, with the cluster desiring one
CID that the daemon already has, SyncAll returns the empty list. -/
theorem syncAll_exact_and_stable_witness :
    (TrackerState.initial.syncAll
        { pins := ["c1"], allocatedHere := fun _ => true }
        { listing := ["c1"] }).2 = [] :=
  (syncAll_exact_and_stable TrackerState.initial
      { pins := ["c1"], allocatedHere := fun _ => true }
      { listing := ["c1"] }).2.1 (by decide)

end Stateless

namespace Adder

/-! Embedding of `Adder.FromFiles`, `Adder.FromMultipart` and
`Adder.setContext` from the adder package (supplied as
src/unnamed/part_000, lines 73-164).  External collaborators
(ipfsadd.NewAdder, merkledag.PrefixForCidVersion, multihash.Names,
the entry iterator, the two Finalize calls and the context) are
represented by an environment of their observable outcomes. -/

/-- How the entry loop of `FromFiles` (lines 135-148) exits: it either
processes every entry, returns early with `a.ctx.Err()` because the
context was cancelled, or returns early with the value of the outer
`err` variable through the `if ipfsAdder.AddFile(...); err != nil`
statement at line 143. -/
inductive LoopExit where
  | completed
  | ctxAbort (e : String)
  | errAbort (e : String)
  deriving DecidableEq, Repr

/-- Observable outcomes of the external calls made by one `FromFiles`
run: the error results of `ipfsadd.NewAdder` (line 107),
`merkledag.PrefixForCidVersion` (line 122), the `multihash.Names`
lookup (line 127), the error value each `ipfsAdder.AddFile` call would
return (line 143 — note the source discards it), whether `a.ctx.Done()`
has fired when entry `i` is examined (line 138), `it.Err()` (line 149),
`ipfsAdder.Finalize` (line 153) and `dgs.Finalize` (line 157) with the
root cid the latter returns. -/
structure AddEnv where
  newAdderErr : Option String
  prefixErr : Option String
  hashFunKnown : Bool
  addFileErr : String → Option String
  ctxDoneAt : Nat → Bool
  iterErr : Option String
  finalizeErr : Option String
  dgsFinalizeErr : Option String
  clusterRoot : String

/-- The entry loop of `FromFiles` (lines 136-148).  `errVar` is the value
of the function-level `err` variable when the loop is entered; each
iteration first checks the context, then runs `AddFile` — whose returned
error is discarded, exactly as in the source's
`if ipfsAdder.AddFile(it.Name(), it.Node()); err != nil` — and then
tests the stale `errVar`. -/
def entryLoop (env : AddEnv) (errVar : Option String) : Nat → List String → LoopExit
  | _, [] => .completed
  | i, name :: rest =>
    if env.ctxDoneAt i then .ctxAbort "context canceled"
    else
      let _discardedAddFileErr := env.addFileErr name
      match errVar with
      | some e => .errAbort e
      | none => entryLoop env errVar (i + 1) rest

/-- The body of `FromFiles` after the context check (lines 107-163).
Each `match` success branch corresponds to `err` being reassigned `nil`
by the source's `x, err := ...` statements, so the entry loop is entered
with the `err` variable equal to `none`. -/
def fromFilesBody (env : AddEnv) (entries : List String) : Except String String :=
  match env.newAdderErr with
  | some e => .error e
  | none =>
    match env.prefixErr with
    | some e => .error ("bad CID Version: " ++ e)
    | none =>
      if !env.hashFunKnown then .error "unrecognized hash function"
      else
        match entryLoop env none 0 entries with
        | .ctxAbort e => .error e
        | .errAbort e => .error e
        | .completed =>
          match env.iterErr with
          | some e => .error e
          | none =>
            match env.finalizeErr with
            | some e => .error e
            | none =>
              match env.dgsFinalizeErr with
              | some e => .error e
              | none => .ok env.clusterRoot

/-- C8: the error returned by `ipfsAdder.AddFile` is never propagated.
Since line 143 tests the stale outer `err` (which is `nil` when the loop
is entered), the entry loop never exits through the `errAbort` branch,
and the whole result of `FromFiles`' body is independent of the errors
`AddFile` returns: a failing AddFile does not by itself cause FromFiles
to return an error. -/
theorem addfile_error_not_propagated (env : AddEnv) (entries : List String) :
    (∀ e : String, ∀ i : Nat, entryLoop env none i entries ≠ .errAbort e) ∧
    (∀ f : String → Option String,
      fromFilesBody { env with addFileErr := f } entries = fromFilesBody env entries) := by
  have hloop : ∀ (en : AddEnv) (l : List String) (i : Nat) (e : String),
      entryLoop en none i l ≠ .errAbort e := by
    intro en l
    induction l with
    | nil =>
      intro i e h
      cases h
    | cons name rest ih =>
      intro i e h
      unfold entryLoop at h
      by_cases hc : en.ctxDoneAt i
      · rw [if_pos hc] at h
        cases h
      · rw [if_neg hc] at h
        exact ih (i + 1) e h
  have hindep : ∀ (f : String → Option String) (l : List String) (i : Nat),
      entryLoop { env with addFileErr := f } none i l = entryLoop env none i l := by
    intro f l
    induction l with
    | nil => intro i; rfl
    | cons name rest ih =>
      intro i
      unfold entryLoop
      by_cases hc : env.ctxDoneAt i
      · rw [if_pos hc, if_pos hc]
      · rw [if_neg hc, if_neg hc]
        exact ih (i + 1)
  constructor
  · intro e i
    exact hloop env entries i e
  · intro f
    unfold fromFilesBody
    rw [hindep f entries 0]

/-- Witness for C8: with every `AddFile` failing but the context alive
and the iterator clean, `FromFiles`' body still reaches Finalize and
returns the cluster root. -/
theorem addfile_error_not_propagated_witness :
    fromFilesBody
      { newAdderErr := none, prefixErr := none, hashFunKnown := true,
        addFileErr := fun _ => some "add failed", ctxDoneAt := fun _ => false,
        iterErr := none, finalizeErr := none, dgsFinalizeErr := none,
        clusterRoot := "root" } ["f1", "f2"] = .ok "root" := by
  have h := (addfile_error_not_propagated
      { newAdderErr := none, prefixErr := none, hashFunKnown := true,
        addFileErr := fun _ => none, ctxDoneAt := fun _ => false,
        iterErr := none, finalizeErr := none, dgsFinalizeErr := none,
        clusterRoot := "root" } ["f1", "f2"]).2 (fun _ => some "add failed")
  exact h.trans rfl

/-- The lifecycle state of an `Adder`'s pinned context (lines 36-49):
whether `setContext` has run (`a.ctx != nil`) and whether the pinned
context is cancelled. -/
structure AdderState where
  ctxSet : Bool
  ctxCancelled : Bool
  deriving DecidableEq, Repr

/-- `Adder.setContext` (lines 73-79): only the first call pins a
context, derived with `context.WithCancel` from the caller's context —
so it starts out cancelled exactly when the parent already is. -/
def setContext (a : AdderState) (parentCancelled : Bool) : AdderState :=
  if !a.ctxSet then { ctxSet := true, ctxCancelled := parentCancelled } else a

/-- The adding work a `FromFiles` body performs (`ipfsadd.NewAdder`,
the per-entry `AddFile` calls, `Finalize`). -/
inductive AddAction where
  | newAdder
  | addFile (name : String)
  | finalize
  deriving DecidableEq, Repr

/-- The `AddFile` actions the entry loop performs before it stops. -/
def loopActions (env : AddEnv) : Nat → List String → List AddAction
  | _, [] => []
  | i, name :: rest =>
    if env.ctxDoneAt i then []
    else .addFile name :: loopActions env (i + 1) rest

/-- The adding work performed by one run of `FromFiles`' body:
`ipfsadd.NewAdder` is always called; the entry loop and `Finalize` run
as far as the early returns allow. -/
def bodyActions (env : AddEnv) (entries : List String) : List AddAction :=
  .newAdder ::
    (match env.newAdderErr, env.prefixErr with
      | none, none =>
        if env.hashFunKnown then
          loopActions env 0 entries ++
            (match entryLoop env none 0 entries, env.iterErr with
              | .completed, none => [.finalize]
              | _, _ => [])
        else []
      | _, _ => [])

/-- `Adder.FromFiles` (lines 96-164) at the lifecycle level: pin the
context on first use, return `(cid.Undef, a.ctx.Err())` if the pinned
context is already cancelled — before any adding work — and otherwise
run the body, with the deferred `a.cancel()` (line 104) firing on
return.  The result is the new adder state, the returned (cid, error)
pair (`none` as cid models `cid.Undef`), and the adding actions
performed. -/
def fromFiles (a : AdderState) (parentCancelled : Bool) (env : AddEnv)
    (entries : List String) :
    AdderState × (Option String × Option String) × List AddAction :=
  let a1 := setContext a parentCancelled
  if a1.ctxCancelled then (a1, (none, some "context canceled"), [])
  else
    let a2 : AdderState := { a1 with ctxCancelled := true }
    match fromFilesBody env entries with
    | .ok root => (a2, (some root, none), bodyActions env entries)
    | .error e => (a2, (none, some e), bodyActions env entries)

/-- `Adder.FromMultipart` (lines 83-92): build a files.Directory from
the reader and delegate to `FromFiles`. -/
def fromMultipart (a : AdderState) (parentCancelled : Bool)
    (readerErr : Option String) (env : AddEnv) (entries : List String) :
    AdderState × (Option String × Option String) × List AddAction :=
  match readerErr with
  | some e => (a, (none, some e), [])
  | none => fromFiles a parentCancelled env entries

/-- On an adder whose pinned context is already cancelled, `FromFiles`
returns `(cid.Undef, ctx.Err())` immediately — before any adding work —
and leaves the state unchanged (lines 98-102). -/
theorem fromFiles_on_cancelled (a : AdderState) (p : Bool) (env : AddEnv)
    (es : List String) (h1 : a.ctxSet = true) (h2 : a.ctxCancelled = true) :
    fromFiles a p env es = (a, (none, some "context canceled"), []) := by
  unfold fromFiles setContext
  rw [h1]
  simp [h2]

/-- C10: an Adder is single-use.  Whatever the first `FromFiles` call on
a fresh Adder did, it leaves the pinned context cancelled, and a second
`FromFiles` — or `FromMultipart`, which delegates to it — returns
`cid.Undef` with a non-nil context-cancellation error, performs no
adding work, and leaves the state unchanged. -/
theorem adder_single_use (a : AdderState) (p1 p2 : Bool) (env1 env2 : AddEnv)
    (es1 es2 : List String) (h : a.ctxSet = false) :
    (fromFiles a p1 env1 es1).1.ctxSet = true ∧
    (fromFiles a p1 env1 es1).1.ctxCancelled = true ∧
    fromFiles (fromFiles a p1 env1 es1).1 p2 env2 es2 =
      ((fromFiles a p1 env1 es1).1, (none, some "context canceled"), []) ∧
    fromMultipart (fromFiles a p1 env1 es1).1 p2 none env2 es2 =
      ((fromFiles a p1 env1 es1).1, (none, some "context canceled"), []) := by
  have hset : setContext a p1 = { ctxSet := true, ctxCancelled := p1 } := by
    unfold setContext
    rw [h]
    rfl
  have hstate : (fromFiles a p1 env1 es1).1.ctxSet = true ∧
      (fromFiles a p1 env1 es1).1.ctxCancelled = true := by
    unfold fromFiles
    rw [hset]
    cases p1 with
    | true => exact ⟨rfl, rfl⟩
    | false =>
      simp only [Bool.false_eq_true, if_false]
      cases hb : fromFilesBody env1 es1 <;> simp [hb]
  have hsecond := fromFiles_on_cancelled (fromFiles a p1 env1 es1).1 p2 env2 es2
    hstate.1 hstate.2
  exact ⟨hstate.1, hstate.2, hsecond, by
    unfold fromMultipart
    exact hsecond⟩

/-- Witness for C10: after one successful `FromFiles` on a fresh Adder,
the second call returns the context-cancellation error with no work. -/
theorem adder_single_use_witness :
    fromFiles
      (fromFiles { ctxSet := false, ctxCancelled := false } false
        { newAdderErr := none, prefixErr := none, hashFunKnown := true,
          addFileErr := fun _ => none, ctxDoneAt := fun _ => false,
          iterErr := none, finalizeErr := none, dgsFinalizeErr := none,
          clusterRoot := "root" } ["f1"]).1 false
      { newAdderErr := none, prefixErr := none, hashFunKnown := true,
        addFileErr := fun _ => none, ctxDoneAt := fun _ => false,
        iterErr := none, finalizeErr := none, dgsFinalizeErr := none,
        clusterRoot := "root" } ["f1"] =
    ((fromFiles { ctxSet := false, ctxCancelled := false } false
        { newAdderErr := none, prefixErr := none, hashFunKnown := true,
          addFileErr := fun _ => none, ctxDoneAt := fun _ => false,
          iterErr := none, finalizeErr := none, dgsFinalizeErr := none,
          clusterRoot := "root" } ["f1"]).1,
      (none, some "context canceled"), []) :=
  (adder_single_use { ctxSet := false, ctxCancelled := false } false false
      { newAdderErr := none, prefixErr := none, hashFunKnown := true,
        addFileErr := fun _ => none, ctxDoneAt := fun _ => false,
        iterErr := none, finalizeErr := none, dgsFinalizeErr := none,
        clusterRoot := "root" }
      { newAdderErr := none, prefixErr := none, hashFunKnown := true,
        addFileErr := fun _ => none, ctxDoneAt := fun _ => false,
        iterErr := none, finalizeErr := none, dgsFinalizeErr := none,
        clusterRoot := "root" } ["f1"] ["f1"] rfl).2.2.1

end Adder

namespace Config

/-! Embedding of the Identity configuration (src/config/identity.go).
The libp2p and encoding libraries it calls are external; they are
abstracted as a `P2PLib` record whose Prop fields state the library
contracts the file relies on. -/

/-- The `identityJSON` struct (identity.go lines 32-35): the saved JSON
form of an identity, two strings. -/
structure IdentityJSON where
  id : String
  privateKey : String
  deriving DecidableEq, Repr

/-- The external libraries used by identity.go, abstracted.  `K` is the
go-libp2p-crypto `PrivKey` type, `Raw` the marshalled JSON bytes.  The
function fields are `peer.ID.Pretty`, `peer.IDB58Decode`, base64
std-encoding encode/decode, `PrivKey.Bytes`, `crypto.UnmarshalPrivateKey`,
`PrivKey.Equals`, `peer.ID.MatchesPrivateKey`, and `json.MarshalIndent` /
`json.Unmarshal` on the two-string struct.  The Prop fields are the
round-trip contracts those libraries document: base64 decoding inverts
encoding (stated on marshalled key bytes), B58-decoding inverts Pretty
for an ID that matches a key, unmarshalling key bytes yields a key equal
to the original that matches the same IDs, and JSON unmarshalling
inverts marshalling. -/
structure P2PLib (K : Type) (Raw : Type) where
  idPretty : String → String
  idB58Decode : String → Except String String
  b64encode : List Nat → String
  b64decode : String → Except String (List Nat)
  keyBytes : K → Except String (List Nat)
  unmarshalPrivateKey : List Nat → Except String K
  keyEquals : K → K → Bool
  matchesPrivateKey : String → K → Bool
  jsonMarshal : IdentityJSON → Raw
  jsonUnmarshal : Raw → Except String IdentityJSON
  b64_roundtrip : ∀ (k : K) (bs : List Nat), keyBytes k = .ok bs →
    b64decode (b64encode bs) = .ok bs
  id_roundtrip : ∀ (pid : String) (k : K), matchesPrivateKey pid k = true →
    idB58Decode (idPretty pid) = .ok pid
  unmarshal_roundtrip : ∀ (k : K) (bs : List Nat), keyBytes k = .ok bs →
    ∃ kk : K, unmarshalPrivateKey bs = .ok kk ∧ keyEquals k kk = true ∧
      keyEquals kk k = true ∧
      ∀ pid : String, matchesPrivateKey pid kk = matchesPrivateKey pid k
  json_roundtrip : ∀ j : IdentityJSON, jsonUnmarshal (jsonMarshal j) = .ok j

/-- The `Identity` struct (identity.go lines 25-28).  `peer.ID` is a
string type; `crypto.PrivKey` is a nil-able interface, hence `Option`. -/
structure Identity (K : Type) where
  id : String
  privateKey : Option K

/-- `Identity.Validate` (identity.go lines 143-156). -/
def validate {K Raw : Type} (L : P2PLib K Raw) (ident : Identity K) : Option String :=
  if ident.id = "" then some "identity ID not set"
  else
    match ident.privateKey with
    | none => some "no identity private_key set"
    | some k =>
      if L.matchesPrivateKey ident.id k then none
      else some "identity ID does not match the private_key"

/-- `Identity.toIdentityJSON` (identity.go lines 88-102).  A nil private
key would make the Go code dereference nil; that is modelled as an
error (the claim's validated identities never reach it). -/
def toIdentityJSON {K Raw : Type} (L : P2PLib K Raw) (ident : Identity K) :
    Except String IdentityJSON :=
  match ident.privateKey with
  | none => .error "nil private key"
  | some k =>
    match L.keyBytes k with
    | .error e => .error e
    | .ok bs => .ok { id := L.idPretty ident.id, privateKey := L.b64encode bs }

/-- `Identity.ToJSON` (identity.go lines 77-86). -/
def toJSON {K Raw : Type} (L : P2PLib K Raw) (ident : Identity K) :
    Except String Raw :=
  match toIdentityJSON L ident with
  | .error e => .error e
  | .ok j => .ok (L.jsonMarshal j)

/-- `Identity.applyIdentityJSON` (identity.go lines 118-139).  Go
mutates the receiver field by field; the success path — the only one the
round-trip claim concerns — yields the fully assigned identity, which is
then validated. -/
def applyIdentityJSON {K Raw : Type} (L : P2PLib K Raw) (j : IdentityJSON) :
    Except String (Identity K) :=
  match L.idB58Decode j.id with
  | .error e => .error ("error decoding cluster ID: " ++ e)
  | .ok pid =>
    match L.b64decode j.privateKey with
    | .error e => .error ("error decoding private_key: " ++ e)
    | .ok pkb =>
      match L.unmarshalPrivateKey pkb with
      | .error e => .error ("error parsing private_key ID: " ++ e)
      | .ok k =>
        match validate L { id := pid, privateKey := some k } with
        | none => .ok { id := pid, privateKey := some k }
        | some e => .error e

/-- `Identity.LoadJSON` (identity.go lines 104-116). -/
def loadJSON {K Raw : Type} (L : P2PLib K Raw) (raw : Raw) :
    Except String (Identity K) :=
  match L.jsonUnmarshal raw with
  | .error e => .error e
  | .ok j => applyIdentityJSON L j

/-- `Identity.Equals` (identity.go lines 184-187): string equality on
the IDs and `PrivKey.Equals` on the keys. -/
def equals {K Raw : Type} (L : P2PLib K Raw) (a b : Identity K) : Bool :=
  a.id == b.id &&
    (match a.privateKey, b.privateKey with
      | some x, some y => L.keyEquals x y
      | _, _ => false)

/-- C9: Identity JSON serialisation round-trips.  For every identity
whose `Validate` returns nil, `LoadJSON` on the bytes produced by
`ToJSON` succeeds and yields an identity that `Equals` the original (in
both orientations). -/
theorem identity_json_roundtrip {K Raw : Type} (L : P2PLib K Raw)
    (ident : Identity K) (hval : validate L ident = none) (raw : Raw)
    (hraw : toJSON L ident = .ok raw) :
    ∃ ident2 : Identity K, loadJSON L raw = .ok ident2 ∧
      equals L ident ident2 = true ∧ equals L ident2 ident = true := by
  unfold validate at hval
  by_cases hid : ident.id = ""
  · rw [if_pos hid] at hval
    cases hval
  · rw [if_neg hid] at hval
    cases hk : ident.privateKey with
    | none => rw [hk] at hval; cases hval
    | some k =>
      rw [hk] at hval
      simp only at hval
      by_cases hmatch : L.matchesPrivateKey ident.id k = true
      · have hbs : ∃ bs, L.keyBytes k = .ok bs ∧
            raw = L.jsonMarshal
              { id := L.idPretty ident.id, privateKey := L.b64encode bs } := by
          unfold toJSON toIdentityJSON at hraw
          rw [hk] at hraw
          simp only at hraw
          cases hkb : L.keyBytes k with
          | error e => rw [hkb] at hraw; cases hraw
          | ok bs =>
            rw [hkb] at hraw
            simp only at hraw
            injection hraw with hraw
            exact ⟨bs, rfl, hraw.symm⟩
        obtain ⟨bs, hkb, hrweq⟩ := hbs
        obtain ⟨kk, hunm, heq1, heq2, hmm⟩ := L.unmarshal_roundtrip k bs hkb
        have hload : loadJSON L raw = .ok { id := ident.id, privateKey := some kk } := by
          unfold loadJSON
          rw [hrweq, L.json_roundtrip]
          unfold applyIdentityJSON
          simp only
          rw [L.id_roundtrip ident.id k hmatch]
          simp only
          rw [L.b64_roundtrip k bs hkb]
          simp only
          rw [hunm]
          simp only
          unfold validate
          rw [if_neg hid]
          simp only
          rw [hmm ident.id, hmatch]
          simp
        refine ⟨{ id := ident.id, privateKey := some kk }, hload, ?_, ?_⟩
        · unfold equals
          rw [hk]
          simp only
          rw [heq1]
          simp
        · unfold equals
          rw [hk]
          simp only
          rw [heq2]
          simp
      · rw [if_neg hmatch] at hval
        cases hval

/-- A concrete instantiation of the library record, for evaluating the
round trip on an explicit identity. -/
def unitLib : P2PLib Unit IdentityJSON where
  idPretty := fun s => s
  idB58Decode := fun s => .ok s
  b64encode := fun _ => "b64"
  b64decode := fun _ => .ok [7]
  keyBytes := fun _ => .ok [7]
  unmarshalPrivateKey := fun _ => .ok ()
  keyEquals := fun _ _ => true
  matchesPrivateKey := fun _ _ => true
  jsonMarshal := fun j => j
  jsonUnmarshal := fun j => .ok j
  b64_roundtrip := fun _ bs h => by
    injection h with h
    rw [← h]
  id_roundtrip := fun _ _ _ => rfl
  unmarshal_roundtrip := fun _ bs _ => ⟨(), rfl, rfl, rfl, fun _ => rfl⟩
  json_roundtrip := fun _ => rfl

/-- Witness for C9: the round trip evaluated on a concrete identity. -/
theorem identity_json_roundtrip_witness :
    loadJSON unitLib { id := "QmPeer", privateKey := "b64" } =
      .ok { id := "QmPeer", privateKey := some () } ∧
    equals unitLib { id := "QmPeer", privateKey := some () }
      { id := "QmPeer", privateKey := some () } = true := by
  obtain ⟨i2, h1, h2, h3⟩ := identity_json_roundtrip unitLib
    { id := "QmPeer", privateKey := some () } rfl
    { id := "QmPeer", privateKey := "b64" } rfl
  have h4 : Except.ok (ε := String) i2 =
      Except.ok ({ id := "QmPeer", privateKey := some () } : Identity Unit) :=
    h1.symm.trans rfl
  injection h4 with h4
  exact ⟨h4 ▸ h1, h4 ▸ h2⟩

end Config
